import Mathlib

/-!
Verification of the lspindex symbol-graph builder (`src/gxl.ts`, `src/lspindex.ts`).

Shallow embedding conventions:
* File URIs and file-system paths are represented by their `/`-separated segment
  lists, exactly as produced by the JavaScript `file.toString().split(path.sep)`
  (an absolute path `/root/a.py` is `["", "root", "a.py"]`).  `pathToFileURL` /
  `fileURLToPath` are mutually inverse bijections between paths and `file://`
  URIs in the source, so both sides are modelled by the same segment list.
* JS `Map` (insertion ordered) is an association list; `Map.set` replaces in
  place or appends; `Map.get` is `find?` on the key.
* `hashObject` (the `object-hash` library) is a deterministic, content-based
  function of its argument; it is modelled by an explicit injective
  serialization of the hashed record.
* Thrown JS exceptions are `Except.error`; functions that cannot throw are
  plain functions.
* Text lines are ASCII in all claims considered, so JS `String.prototype.slice`
  / `startsWith` coincide with character-list `drop` / `isPrefixOf`.
-/

namespace LSPIndex

/-- LSP `Position` (0-based line / character). -/
structure Position where
  line : Nat
  character : Nat
deriving DecidableEq, Repr

/-- LSP `Range`; the source field `end` is spelled `endPos` (`end` is a Lean keyword). -/
structure Range where
  start : Position
  endPos : Position
deriving DecidableEq, Repr

/-- A path / file URI as its `/`-split segment list. -/
abbrev Path := List String

/-- LSP `Location`. -/
structure Location where
  uri : Path
  range : Range
deriving DecidableEq, Repr

/-- The `SymbolInformation` shape of `vscode-languageserver-types` (flat symbol lists). -/
structure SymbolInformation where
  name : String
  kind : Nat
  containerName : Option String
  location : Location
deriving DecidableEq, Repr

/-- The `DocumentSymbol` shape of `vscode-languageserver-types` (hierarchical form).
The source never descends into `children`, so they are not modelled. -/
structure DocumentSymbol where
  name : String
  kind : Nat
  range : Range
  selectionRange : Range
deriving DecidableEq, Repr

/-- Models `LSPSymbol = SymbolInformation | DocumentSymbol` (src/lsp.ts); the
`DocumentSymbol.is` test is the constructor discrimination. -/
inductive LSPSymbol
  | info : SymbolInformation → LSPSymbol
  | doc : DocumentSymbol → LSPSymbol
deriving DecidableEq, Repr

namespace LSPSymbol

def name : LSPSymbol → String
  | .info s => s.name
  | .doc d => d.name

def kind : LSPSymbol → Nat
  | .info s => s.kind
  | .doc d => d.kind

def containerName : LSPSymbol → Option String
  | .info s => s.containerName
  | .doc _ => none

/-- Models `DocumentSymbol.is(symbol) ? symbol.range : symbol.location.range`. -/
def rangeOf : LSPSymbol → Range
  | .info s => s.location.range
  | .doc d => d.range

/-- Models `DocumentSymbol.is(symbol) ? symbol.selectionRange : symbol.location.range`
(lspindex.ts lines 227-229). -/
def selectionRangeOf : LSPSymbol → Range
  | .info s => s.location.range
  | .doc d => d.selectionRange

end LSPSymbol

-- The numeric `SymbolKind` constants of the LSP specification.
namespace SymbolKind

def File : Nat := 1
def Module : Nat := 2
def Namespace : Nat := 3
def Package : Nat := 4
def Class : Nat := 5
def Method : Nat := 6
def Property : Nat := 7
def Field : Nat := 8
def Constructor : Nat := 9
def Enum : Nat := 10
def Interface : Nat := 11
def Function : Nat := 12
def Variable : Nat := 13
def Constant : Nat := 14
def String : Nat := 15
def Number : Nat := 16
def Boolean : Nat := 17
def Array : Nat := 18
def Object : Nat := 19
def Key : Nat := 20
def Null : Nat := 21
def EnumMember : Nat := 22
def Struct : Nat := 23
def Event : Nat := 24
def Operator : Nat := 25
def TypeParameter : Nat := 26

end SymbolKind

/-! ## Node `path` helpers, specialised to normalized absolute paths -/

/-- Models `segments.join(path.sep)`. -/
def joinSegs (segs : List String) : String := String.intercalate "/" segs

/-- Node `path.basename` on a normalized path: the last non-empty segment
(`basename "/" = ""`, `basename "" = ""`). -/
def basename (p : Path) : String :=
  ((p.reverse.find? (fun s => s ≠ "")).getD "")

/-- Node `path.join(p, "..")` for a normalized absolute path: drop the last
segment; the parent of a top-level entry is the root `"/"` (= `["", ""]`). -/
def parentPath (p : Path) : Path :=
  let init := p.dropLast
  if init = [""] ∨ init = [] then ["", ""] else init

def commonPrefixLen : List String → List String → Nat
  | a :: as, b :: bs => if a = b then 1 + commonPrefixLen as bs else 0
  | _, _ => 0

/-- Node `path.relative(root, p)` for normalized absolute paths: strip the
common prefix, one `..` per remaining segment of `root`, then the remaining
segments of `p`, joined by `/`. -/
def relativeSegs (root p : Path) : List String :=
  let c := commonPrefixLen root p
  List.replicate (root.length - c) ".." ++ p.drop c

def relativePath (root p : Path) : String := joinSegs (relativeSegs root p)

/-- JS `String.prototype.startsWith` (ASCII), as a character-list prefix test. -/
def strStartsWith (s pre : String) : Bool := pre.toList.isPrefixOf s.toList

/-! ## gxl.ts: identity, attributes, nodes and edges -/

/-- Models `getGXLSymbolKind` (gxl.ts lines 223-240). -/
def getGXLSymbolKind (symbol : LSPSymbol) : Option String :=
  if symbol.kind = SymbolKind.File ∨ symbol.kind = SymbolKind.Module then some "File"
  else if symbol.kind = SymbolKind.Class then some "Class"
  else if symbol.kind = SymbolKind.Field ∨ symbol.kind = SymbolKind.Property then some "Member"
  else if symbol.kind = SymbolKind.Method then some "Method"
  else if symbol.kind = SymbolKind.Function then some "Routine"
  else none

def hashPosition (p : Position) : String :=
  toString p.line ++ "," ++ toString p.character

def hashRange (r : Range) : String :=
  hashPosition r.start ++ "-" ++ hashPosition r.endPos

/-- Models `hashObject(symbol)`: deterministic content hash of the full symbol record,
modelled as an injective serialization. -/
def hashObject : LSPSymbol → String
  | .info s =>
      "SymbolInformation(" ++ s.name ++ ";" ++ toString s.kind ++ ";" ++
        (match s.containerName with | none => "#none" | some c => c) ++ ";" ++
        joinSegs s.location.uri ++ ";" ++ hashRange s.location.range ++ ")"
  | .doc d =>
      "DocumentSymbol(" ++ d.name ++ ";" ++ toString d.kind ++ ";" ++
        hashRange d.range ++ ";" ++ hashRange d.selectionRange ++ ")"

/-- Models `hashObject({ from, to, type })` used for edge ids (gxl.ts line 78). -/
def hashEdge (fromId toId type : String) : String :=
  "edge(" ++ fromId ++ ";" ++ toId ++ ";" ++ type ++ ")"

/-- The JS runtime value of a node attribute.  The
TypeScript type is `string | number`, but the runtime value may be anything. -/
inductive JSValue
  | null
  | undefined
  | int (n : Int)
  | float
  | str (s : String)
  | other
deriving DecidableEq, Repr

/-- A value the encoder can represent: a whole number or a string. -/
def isSupportedJSValue : JSValue → Bool
  | .int _ => true
  | .str _ => true
  | _ => false

/-- Models `symbolId` (gxl.ts lines 12-19); `String(undefined) = "undefined"`. -/
def symbolId (symbol : LSPSymbol) : String :=
  toString symbol.kind ++ ":" ++
    (match getGXLSymbolKind symbol with | some t => t | none => "undefined") ++ ":" ++
    symbol.name ++ ":" ++ hashObject symbol

/-- One serialized `<attr>` element: name, value-type tag and text content. -/
structure GXLAttr where
  name : String
  type : String
  text : String
deriving DecidableEq, Repr

structure GXLNode where
  id : String
  type : String
  attrs : List GXLAttr
deriving DecidableEq, Repr

structure GXLEdge where
  fromId : String
  toId : String
  id : String
  type : String
deriving DecidableEq, Repr

/-- Models `addGXLAttribute` (gxl.ts lines 83-101): `int` for integral numbers,
`string` for strings, otherwise `throw new Error("Invalid type")`. -/
def addGXLAttribute (name : String) (value : JSValue) : Except String GXLAttr :=
  match value with
  | .int n => .ok { name := name, type := "int", text := toString n }
  | .str s => .ok { name := name, type := "string", text := s }
  | _ => .error "Invalid type"

/-- The attribute loop of `createGXLNode` (gxl.ts lines 64-69): a `null` or
`undefined` value throws `Attribute <name> for node <id> has no value`. -/
def buildAttrs (id : String) : List (String × JSValue) → Except String (List GXLAttr)
  | [] => .ok []
  | (name, value) :: rest =>
    match value with
    | .null => .error ("Attribute " ++ name ++ " for node " ++ id ++ " has no value")
    | .undefined => .error ("Attribute " ++ name ++ " for node " ++ id ++ " has no value")
    | v =>
      match addGXLAttribute name v with
      | .error e => .error e
      | .ok attr =>
        match buildAttrs id rest with
        | .error e => .error e
        | .ok attrList => .ok (attr :: attrList)

/-- Models `createGXLNode` (gxl.ts lines 55-72). -/
def createGXLNode (id : String) (type : String) (attrs : List (String × JSValue)) :
    Except String GXLNode :=
  match buildAttrs id attrs with
  | .error e => .error e
  | .ok attrList => .ok { id := id, type := type, attrs := attrList }

/-- Models `createGXLEdge` (gxl.ts lines 74-81): the `id` attribute is
`hashObject({ from, to, type })`. -/
def createGXLEdge (fromId toId type : String) : GXLEdge :=
  { fromId := fromId, toId := toId, id := hashEdge fromId toId type, type := type }

/-! ## gxl.ts: `asGXL` -/

/-- The `symbols` map: URI → symbols of that file, in insertion order. -/
abbrev Store := List (Path × List LSPSymbol)

/-- The `references` map: definition symbol → referencing symbols. -/
abbrev RefMap := List (LSPSymbol × List LSPSymbol)

/-- Models `Map.get`. -/
def lookupStore (store : Store) (key : Path) : Option (List LSPSymbol) :=
  (store.find? (fun e => e.1 = key)).map (fun e => e.2)

/-- Models `Map.get` on the references map (object identity in the source; the
pipeline stores each symbol object once, so value lookup coincides). -/
def lookupReferences (references : RefMap) (s : LSPSymbol) : Option (List LSPSymbol) :=
  (references.find? (fun e => e.1 = s)).map (fun e => e.2)

/-- Models `Map.set`: replace in place if the key exists, else append. -/
def storeSet (store : Store) (key : Path) (value : List LSPSymbol) : Store :=
  if (lookupStore store key).isSome then
    store.map (fun e => if e.1 = key then (key, value) else e)
  else store ++ [(key, value)]

/-- A child of the `<graph>` element, in append order. -/
inductive GXLElement
  | node : GXLNode → GXLElement
  | edge : GXLEdge → GXLElement
deriving DecidableEq, Repr

/-- The mutable state of the `asGXL` loop: the appended children, the
`nodeIds` set (insertion order) and the `edgeNodeIds` list. -/
structure BuildState where
  elements : List GXLElement
  nodeIds : List String
  edgeNodeIds : List (String × String)
deriving DecidableEq, Repr

def initialBuildState : BuildState := { elements := [], nodeIds := [], edgeNodeIds := [] }

/-- Models `Set.add`. -/
def insertNodeId (ids : List String) (id : String) : List String :=
  if ids.contains id then ids else ids ++ [id]

/-- The node attributes passed to `createGXLNode` (gxl.ts lines 176-181). -/
def nodeAttrs (symbol : LSPSymbol) (rootPath uri : Path) : List (String × JSValue) :=
  [("Source.Name", JSValue.str symbol.name),
   ("Source.Line", JSValue.int symbol.rangeOf.start.line),
   ("Source.Column", JSValue.int symbol.rangeOf.start.character),
   ("Source.Path", JSValue.str (relativePath rootPath uri))]

/-- The `symbol.kind === SymbolKind.File` branch of the loop (gxl.ts lines
118-155): the `Enclosing` edge from a file/directory node to its parent
directory node, if one is appended.  The edge is suppressed both for files
outside the root and whenever the parent directory path *is* the root
(`parentDirectoryPath !== rootPath`, line 128).  Reading
`parentDirSymbols[0].kind` of an empty entry throws a `TypeError`. -/
def enclosingForFileSymbol (rootPath : Path) (symbolsByFile : Store) (uri : Path)
    (nodeID : String) : Except String (Option GXLEdge) :=
  let rel := relativePath rootPath uri
  if rel = ".." ∨ strStartsWith rel "../" then .ok none
  else
    let parentDirectoryPath := parentPath uri
    if parentDirectoryPath = rootPath then .ok none
    else
      match lookupStore symbolsByFile parentDirectoryPath with
      | some parentDirSymbols =>
        match parentDirSymbols with
        | [] => .error "TypeError: Cannot read properties of undefined (reading kind)"
        | p0 :: _ => .ok (some (createGXLEdge nodeID (symbolId p0) "Enclosing"))
      | none => .ok none

/-- The references loop (gxl.ts lines 184-197): one `Source_Dependency` edge
per referencing symbol, each pushed onto `edgeNodeIds` and appended. -/
def appendReferenceEdges (nodeID : String) : List LSPSymbol → BuildState → BuildState
  | [], st => st
  | referenceSymbol :: rest, st =>
    let referenceNodeID := symbolId referenceSymbol
    appendReferenceEdges nodeID rest
      { st with
        edgeNodeIds := st.edgeNodeIds ++ [(referenceNodeID, nodeID)],
        elements := st.elements ++
          [GXLElement.edge (createGXLEdge referenceNodeID nodeID "Source_Dependency")] }

/-- One iteration of the inner symbol loop of `asGXL` (gxl.ts lines 107-198).
Note on the non-file branch (lines 156-173): for a `SymbolInformation` the
source *creates* an `Enclosing` edge to the `containerName` match (line 161)
or to the file symbol (line 170), but never appends either edge to the graph
element — unlike line 146 for the file branch — so that branch has no effect
on the emitted document and is modelled by no state change. -/
def asGXLSymbolStep (rootPath : Path) (symbolsByFile : Store) (references : RefMap)
    (uri : Path) (st : BuildState) (symbol : LSPSymbol) : Except String BuildState :=
  match getGXLSymbolKind symbol with
  | none => .ok st
  | some type =>
    let nodeID := symbolId symbol
    let st := { st with nodeIds := insertNodeId st.nodeIds nodeID }
    match (if symbol.kind = SymbolKind.File then
            enclosingForFileSymbol rootPath symbolsByFile uri nodeID
           else .ok none) with
    | .error e => .error e
    | .ok enclosingEdge =>
      let st :=
        match enclosingEdge with
        | some edge => { st with elements := st.elements ++ [GXLElement.edge edge] }
        | none => st
      match createGXLNode nodeID type (nodeAttrs symbol rootPath uri) with
      | .error e => .error e
      | .ok node =>
        let st := { st with elements := st.elements ++ [GXLElement.node node] }
        .ok (appendReferenceEdges nodeID ((lookupReferences references symbol).getD []) st)

/-- The inner symbol loop over one file entry. -/
def asGXLSymbols (rootPath : Path) (symbolsByFile : Store) (references : RefMap)
    (uri : Path) : List LSPSymbol → BuildState → Except String BuildState
  | [], st => .ok st
  | symbol :: rest, st =>
    match asGXLSymbolStep rootPath symbolsByFile references uri st symbol with
    | .error e => .error e
    | .ok st' => asGXLSymbols rootPath symbolsByFile references uri rest st'

/-- The outer loop over `symbolsByFile` (insertion order). -/
def asGXLEntries (rootPath : Path) (symbolsByFile : Store) (references : RefMap) :
    List (Path × List LSPSymbol) → BuildState → Except String BuildState
  | [], st => .ok st
  | entry :: rest, st =>
    match asGXLSymbols rootPath symbolsByFile references entry.1 entry.2 st with
    | .error e => .error e
    | .ok st' => asGXLEntries rootPath symbolsByFile references rest st'

/-- The `// Verify` pass (gxl.ts lines 201-210): scan the recorded
`edgeNodeIds` and report (via `logger.error`, non-fatally) each endpoint id
absent from the `nodeIds` set. -/
def validateEdges (nodeIds : List String) : List (String × String) → List String
  | [] => []
  | e :: rest =>
    (if nodeIds.contains e.1 then [] else
       ["Edge is referencing non-existant from node " ++ e.1]) ++
    (if nodeIds.contains e.2 then [] else
       ["Edge is referencing non-existant to node " ++ e.2]) ++
    validateEdges nodeIds rest

/-- The observable outcome of `asGXL`: the children of the `<graph>` element in
document order, the node-id set, the recorded edge list and the messages of
the verification pass.  (The XML serialization itself is an external library
call and adds no information.) -/
structure GXLResult where
  elements : List GXLElement
  nodeIds : List String
  edgeNodeIds : List (String × String)
  validationErrors : List String
deriving DecidableEq, Repr

/-- Models `asGXL` (gxl.ts lines 31-221). -/
def asGXL (symbolsByFile : Store) (references : RefMap) (rootPath : Path) :
    Except String GXLResult :=
  match asGXLEntries rootPath symbolsByFile references symbolsByFile initialBuildState with
  | .error e => .error e
  | .ok st =>
    .ok { elements := st.elements, nodeIds := st.nodeIds,
          edgeNodeIds := st.edgeNodeIds,
          validationErrors := validateEdges st.nodeIds st.edgeNodeIds }

/-- Edge elements of a document, in order. -/
def edgeElements (els : List GXLElement) : List GXLEdge :=
  els.filterMap (fun el => match el with | .edge e => some e | _ => none)

/-- Node elements of a document, in order. -/
def nodeElements (els : List GXLElement) : List GXLNode :=
  els.filterMap (fun el => match el with | .node n => some n | _ => none)

/-! ## lspindex.ts: the collection pipeline -/

/-- The kind list of `symbolSizes` (lspindex.ts lines 33-65) in source order,
written with the numeric LSP kinds. -/
def symbolSizesList : List Nat :=
  [SymbolKind.Package, SymbolKind.Namespace, SymbolKind.File, SymbolKind.Module,
   SymbolKind.Class, SymbolKind.Function, SymbolKind.Enum, SymbolKind.Interface,
   SymbolKind.Method, SymbolKind.Constructor, SymbolKind.Field, SymbolKind.Property,
   SymbolKind.EnumMember, SymbolKind.Variable, SymbolKind.TypeParameter,
   SymbolKind.Constant, SymbolKind.String, SymbolKind.Number, SymbolKind.Boolean,
   SymbolKind.Array, SymbolKind.Object, SymbolKind.Key, SymbolKind.Null,
   SymbolKind.Struct, SymbolKind.Event, SymbolKind.Operator]

/-- Models `symbolSizes` = `mapValues(invert(list.reverse()), parseInt)`: the rank of a
kind is its index in the reversed list (most specific = smallest). -/
def symbolSizes (kind : Nat) : Nat := symbolSizesList.reverse.indexOf kind

/-- The synthetic single symbol of a directory entry (lspindex.ts lines
201-214): kind `File`, `name` = `path.basename(dir)`, `containerName` =
`path.basename(path.join(dir, ".."))`, a zero range.  `dir` is the literal
path string of the loop; `uri` is the map key (`pathToFileURL(dir)`, which
resolves an empty `dir` to the working directory). -/
def directorySymbol (dir uri : Path) : LSPSymbol :=
  .info { name := basename dir, kind := SymbolKind.File,
          containerName := some (basename (parentPath dir)),
          location := { uri := uri,
                        range := { start := { line := 0, character := 0 },
                                   endPos := { line := 0, character := 0 } } } }

/-- The `while (segments.pop())` directory loop (lspindex.ts lines 188-216).
`segments` is `file.toString().split(path.sep)`; each iteration pops the last
segment (an empty popped segment — the leading `""` of an absolute path — is
falsy and ends the loop), joins the remainder into `dir`, stops before any
directory whose path relative to the root starts with `..`, and inserts a
synthetic single-symbol entry for every directory not already present.  When
all real segments are popped, `dir` is the empty string, which Node's
`path.relative` / `pathToFileURL` resolve against the working directory
`cwd`.  The pop-from-the-end loop is structural recursion on the *reversed*
segment list (`addDirectorySymbols` below reverses once at entry); `dir` is
the remaining segments in original order. -/
def addDirectorySymbolsRev (rootPath cwd : Path) : List String → Store → Store
  | [], store => store
  | last :: restRev, store =>
    if last = "" then store
    else
      let dir := restRev.reverse
      let dirIsEmptyString := joinSegs dir = ""
      let rel := relativePath rootPath (if dirIsEmptyString then cwd else dir)
      if rel = ".." ∨ strStartsWith rel "../" then store
      else
        let uri := if dirIsEmptyString then cwd else dir
        let store' :=
          if (lookupStore store uri).isSome then store
          else store ++ [(uri, [directorySymbol dir uri])]
        addDirectorySymbolsRev rootPath cwd restRev store'

def addDirectorySymbols (rootPath cwd : Path) (segments : List String) (store : Store) :
    Store :=
  addDirectorySymbolsRev rootPath cwd segments.reverse store

/-- Lines 183-186: the store receives the *filtered* copy of the provider's
symbols (`docSymbols.filter(getGXLSymbolKind)`).  The later
`docSymbols.push({... kind: SymbolKind.File ...})` at lines 268-280 mutates
the original, already-discarded array, so the per-file "whole file" symbol
never reaches the store. -/
def putFileSymbols (store : Store) (uri : Path) (docSymbols : List LSPSymbol) : Store :=
  storeSet store uri (docSymbols.filter (fun s => (getGXLSymbolKind s).isSome))

/-- The store effect of one `for await (const file of files)` iteration
(lspindex.ts lines 177-216): register the filtered symbols, then add the
missing ancestor-directory entries. -/
def collectFile (rootPath cwd : Path) (file : Path) (docSymbols : List LSPSymbol)
    (store : Store) : Store :=
  addDirectorySymbols rootPath cwd file (putFileSymbols store file docSymbols)

/-! ### Reference collection (lspindex.ts lines 218-266) -/

/-- Models `/\bimport\b/.test(lineContent)`: the line contains the word `import`
delimited by non-word characters (JS word characters: letters, digits, `_`). -/
def isWordChar (c : Char) : Bool := c.isAlphanum || c = '_'

def testWordImport (lineContent : String) : Bool :=
  let cs := lineContent.toList
  let kw := "import".toList
  (List.range (cs.length + 1)).any fun i =>
    decide ((cs.drop i).take 6 = kw) &&
    (decide (i = 0) || !isWordChar (cs.getD (i - 1) ' ')) &&
    !isWordChar (cs.getD (i + 6) ' ')

/-- The keyword-anchor adjustment (lspindex.ts lines 237-246): if the line text
from the anchor starts with `"def "` the anchor advances by `"def ".length + 1
= 5`; then, if the text from the (possibly advanced) anchor starts with
`"class "`, it advances by `"class ".length + 1 = 7`. -/
def adjustCharacter (lineContent : String) (character : Nat) : Nat :=
  let cs := lineContent.toList
  let character :=
    if "def ".toList.isPrefixOf (cs.drop character) then character + 5 else character
  if "class ".toList.isPrefixOf (cs.drop character) then character + 7 else character

/-- Because `referencePosition = range.start` aliases the symbol's stored start
position, so `referencePosition.character += …` writes through to the symbol
record: the selection range of a `DocumentSymbol`, the single
`location.range` of a `SymbolInformation`. -/
def setAnchorCharacter (symbol : LSPSymbol) (c : Nat) : LSPSymbol :=
  match symbol with
  | .doc d =>
    .doc { d with selectionRange :=
            { d.selectionRange with start := { d.selectionRange.start with character := c } } }
  | .info s =>
    .info { s with location :=
            { s.location with range :=
              { s.location.range with start := { s.location.range.start with character := c } } } }

/-- One iteration of the per-symbol reference-collection loop (lspindex.ts
lines 223-265), as a function of the file's lines (`content.split("\n")`).
Returns the symbol as it is stored after the iteration, and the position sent
with the `textDocument/references` request (`none` when no request is issued:
unmapped kind, or a line matching `/\bimport\b/`). -/
def getReferencesStep (content : List String) (symbol : LSPSymbol) :
    LSPSymbol × Option Position :=
  if (getGXLSymbolKind symbol).isNone then (symbol, none)
  else
    let start := symbol.selectionRangeOf.start
    let lineContent := content.getD start.line ""
    if testWordImport lineContent then (symbol, none)
    else
      let c := adjustCharacter lineContent start.character
      (setAnchorCharacter symbol c, some { line := start.line, character := c })

/-! ### Reference mapping (lspindex.ts lines 288-335) -/

/-- vscode `Position` order (`isBeforeOrEqual`). -/
def posLe (a b : Position) : Bool :=
  decide (a.line < b.line) || (decide (a.line = b.line) && decide (a.character ≤ b.character))

/-- Models `Range#contains` of `@sourcegraph/extension-api-classes` applied to a
range: both endpoints inside, inclusive of equal bounds. -/
def containsRange (outer inner : Range) : Bool :=
  posLe outer.start inner.start && posLe inner.endPos outer.endPos

/-- Resolution of a single reference location (lspindex.ts lines 290-317).
`ignoreMatch` is `micromatch.isMatch(·, ignore)`.  The source computes
`sortBy(documentSymbols.slice(0), s => symbolSizes[s.kind])` (line 303) but
discards the returned array — lodash `sortBy` does not mutate, and it is
called on a copy — so the `find` on the next line runs over the *original*
provider-ordered list. -/
def mapReference (ignoreMatch : Path → Bool) (symbols : Store) (reference : Location) :
    Option LSPSymbol :=
  if ignoreMatch reference.uri then none
  else
    match lookupStore symbols reference.uri with
    | none => none
    | some documentSymbols =>
      documentSymbols.find? (fun symbol => containsRange symbol.rangeOf reference.range)

/-- The inner loop over one definition's reference list: every resolved
referencing symbol is pushed, every rejected reference is skipped. -/
def mapReferences (ignoreMatch : Path → Bool) (symbols : Store)
    (references : List Location) : List LSPSymbol :=
  references.filterMap (mapReference ignoreMatch symbols)

/-- Stable ascending insertion by `symbolSizes` (lodash `sortBy` is stable). -/
def insertRanked (s : LSPSymbol) : List LSPSymbol → List LSPSymbol
  | [] => [s]
  | t :: ts => if symbolSizes t.kind < symbolSizes s.kind then t :: insertRanked s ts
               else s :: t :: ts

def sortBySizes : List LSPSymbol → List LSPSymbol
  | [] => []
  | s :: ss => insertRanked s (sortBySizes ss)

/-- Modelled from the spec: the Reference Mapper as specified (spec section
4.3) sorts the target file's symbols by the fixed kind-specificity ranking
`symbolSizes`, most specific first, and then picks the first whose range
contains the reference — the source computes this sort but discards its
result, so this definition exists only for comparison with `mapReference`. -/
def mapReferenceRanked (ignoreMatch : Path → Bool) (symbols : Store)
    (reference : Location) : Option LSPSymbol :=
  if ignoreMatch reference.uri then none
  else
    match lookupStore symbols reference.uri with
    | none => none
    | some documentSymbols =>
      (sortBySizes documentSymbols).find?
        (fun symbol => containsRange symbol.rangeOf reference.range)

/-! ## Concrete instances used to settle the claims -/

def emptyGXLResult : GXLResult :=
  { elements := [], nodeIds := [], edgeNodeIds := [], validationErrors := [] }

/-- The thrown message of a failed `asGXL` run, if any. -/
def errorOf (x : Except String GXLResult) : Option String :=
  match x with
  | .error e => some e
  | .ok _ => none

/-- The successful result of `asGXL` (meaningful when `(asGXL …).isOk`). -/
def runAsGXL (store : Store) (references : RefMap) (rootPath : Path) : GXLResult :=
  (asGXL store references rootPath).toOption.getD emptyGXLResult

def mkRange (l1 c1 l2 c2 : Nat) : Range :=
  { start := { line := l1, character := c1 }, endPos := { line := l2, character := c2 } }

def mkInfo (name : String) (kind : Nat) (containerName : Option String) (uri : Path)
    (range : Range) : LSPSymbol :=
  .info { name := name, kind := kind, containerName := containerName,
          location := { uri := uri, range := range } }

-- C1: a file entry with a method whose `containerName` names the class of the
-- same entry, and a file entry that also carries a file-kind symbol whose name
-- is the file's base name.
def rootC1 : Path := ["", "root"]
def uriC1 : Path := ["", "root", "f.py"]
def symC1class : LSPSymbol := mkInfo "C" SymbolKind.Class none uriC1 (mkRange 0 0 10 1)
def symC1method : LSPSymbol := mkInfo "m" SymbolKind.Method (some "C") uriC1 (mkRange 2 2 4 1)
def uriC1b : Path := ["", "root", "g.py"]
def symC1file : LSPSymbol := mkInfo "g.py" SymbolKind.File none uriC1b (mkRange 0 0 0 0)
def symC1func : LSPSymbol := mkInfo "h" SymbolKind.Function none uriC1b (mkRange 1 0 3 0)
def storeC1 : Store := [(uriC1, [symC1class, symC1method]), (uriC1b, [symC1file, symC1func])]

-- C2: a class listed before the method it contains, and a reference inside both.
def rootC2 : Path := ["", "root"]
def uriC2 : Path := ["", "root", "x.py"]
def symC2class : LSPSymbol := mkInfo "C" SymbolKind.Class none uriC2 (mkRange 0 0 10 1)
def symC2method : LSPSymbol := mkInfo "m" SymbolKind.Method (some "C") uriC2 (mkRange 2 2 4 1)
def storeC2 : Store := [(uriC2, [symC2class, symC2method])]
def refC2 : Location := { uri := uriC2, range := mkRange 3 4 3 7 }

-- C3: one file at depth 2 and one at depth 1 under the root.
def rootC3 : Path := ["", "root"]
def fileC3 : Path := ["", "root", "pkg", "a.py"]
def symC3func : LSPSymbol := mkInfo "foo" SymbolKind.Function none fileC3 (mkRange 3 0 5 0)
def storeC3 : Store := collectFile rootC3 rootC3 fileC3 [symC3func] []
def fileC3b : Path := ["", "root", "b.py"]
def storeC3b : Store := collectFile rootC3 rootC3 fileC3b [] []

-- C4: a class declared as `class Foo:` whose reported range starts at column 0.
def uriC4 : Path := ["", "root", "m.py"]
def symC4class : LSPSymbol := mkInfo "Foo" SymbolKind.Class none uriC4 (mkRange 0 0 2 0)
def contentC4 : List String := ["class Foo:", "    pass"]

-- C5: a function declared on a `def ` line, queried for references.
def uriC5 : Path := ["", "root", "a.py"]
def symC5func : LSPSymbol := mkInfo "foo" SymbolKind.Function none uriC5 (mkRange 0 0 0 12)
def contentC5 : List String := ["def foo():"]
def symC5mutated : LSPSymbol := mkInfo "foo" SymbolKind.Function none uriC5 (mkRange 0 5 0 12)

-- C6: a reference into a file that was never collected.
def refC6 : Location := { uri := ["", "root", "z.py"], range := mkRange 0 0 0 1 }

-- C7: an empty parent-directory entry, reached from a child file entry.
def rootC7 : Path := ["", "root"]
def symC7file : LSPSymbol := mkInfo "b" SymbolKind.File none ["", "root", "a", "b"] (mkRange 0 0 0 0)
def storeC7 : Store := [(["", "root", "a", "b"], [symC7file]), (["", "root", "a"], [])]
def uriC7w : Path := ["", "root", "f.py"]
def symC7w : LSPSymbol := mkInfo "f" SymbolKind.Function none uriC7w (mkRange 0 0 1 0)
def storeC7w : Store := [(uriC7w, [symC7w])]

-- C8: a small store with one definition and one reference.
def rootC8 : Path := ["", "root"]
def uriC8 : Path := ["", "root", "y.py"]
def symC8def : LSPSymbol := mkInfo "d" SymbolKind.Function none uriC8 (mkRange 0 0 2 0)
def symC8ref : LSPSymbol := mkInfo "r" SymbolKind.Function none uriC8 (mkRange 4 0 6 0)
def storeC8 : Store := [(uriC8, [symC8def, symC8ref])]
def refsC8 : RefMap := [(symC8def, [symC8ref])]

-- C9 counterexample: a directory entry whose single symbol has a kind outside
-- the node-type table, so the `Enclosing` edge to it dangles.
def rootC9 : Path := ["", "root"]
def symC9file : LSPSymbol := mkInfo "b" SymbolKind.File none ["", "root", "a", "b"] (mkRange 0 0 0 0)
def symC9var : LSPSymbol := mkInfo "a" SymbolKind.Variable none ["", "root", "a"] (mkRange 0 0 0 0)
def storeC9 : Store := [(["", "root", "a", "b"], [symC9file]), (["", "root", "a"], [symC9var])]
-- C9 witness: a `Source_Dependency` edge from a symbol of an uncollected file.
def uriC9w : Path := ["", "root", "w.py"]
def symC9wdef : LSPSymbol := mkInfo "d" SymbolKind.Function none uriC9w (mkRange 0 0 2 0)
def symC9wghost : LSPSymbol :=
  mkInfo "g" SymbolKind.Function none ["", "root", "gone.py"] (mkRange 0 0 2 0)
def storeC9w : Store := [(uriC9w, [symC9wdef])]
def refsC9w : RefMap := [(symC9wdef, [symC9wghost])]

-- C10: the same referencing symbol references the same definition twice.
def rootC10 : Path := ["", "root"]
def uriC10 : Path := ["", "root", "m.py"]
def symC10def : LSPSymbol := mkInfo "f" SymbolKind.Function none uriC10 (mkRange 3 0 5 0)
def storeC10 : Store := [(uriC10, [symC10def])]
def refsC10 : RefMap := [(symC10def, [symC10def, symC10def])]
def edgeC10 : GXLEdge :=
  createGXLEdge (symbolId symC10def) (symbolId symC10def) "Source_Dependency"


/-! ## Helper lemmas -/

/-- A line that starts with the `class ` keyword does not start with `def `. -/
theorem classKw_not_defKw (xs : List Char) (h : ("class ".toList).isPrefixOf xs = true) :
    ("def ".toList).isPrefixOf xs = false := by
  cases xs with
  | nil => simp [List.isPrefixOf] at h
  | cons x xs' =>
    have hc : ("class ".toList) = 'c' :: "lass ".toList := rfl
    have hd : ("def ".toList) = 'd' :: "ef ".toList := rfl
    rw [hc] at h
    rw [hd]
    simp [List.isPrefixOf] at h ⊢
    intro h2
    rw [← h2] at h
    exact absurd h.1 (by decide)

theorem adjust_class (line : String) (c : Nat)
    (h : ("class ".toList).isPrefixOf (line.toList.drop c) = true) :
    adjustCharacter line c = c + 7 := by
  have hd := classKw_not_defKw _ h
  simp only [adjustCharacter]
  rw [hd]
  simp only [Bool.false_eq_true, if_false]
  rw [h]
  simp

theorem adjust_def (line : String) (c : Nat)
    (h1 : ("def ".toList).isPrefixOf (line.toList.drop c) = true)
    (h2 : ("class ".toList).isPrefixOf (line.toList.drop (c + 5)) = false) :
    adjustCharacter line c = c + 5 := by
  simp only [adjustCharacter]
  rw [h1]
  simp only [if_true]
  rw [h2]
  simp

theorem mapReference_rejected (ignoreMatch : Path → Bool) (symbols : Store)
    (reference : Location)
    (h : ignoreMatch reference.uri = true ∨
         lookupStore symbols reference.uri = none ∨
         (∀ syms, lookupStore symbols reference.uri = some syms →
            ∀ s ∈ syms, containsRange s.rangeOf reference.range = false)) :
    mapReference ignoreMatch symbols reference = none := by
  unfold mapReference
  cases hig : ignoreMatch reference.uri with
  | true => simp
  | false =>
    simp only [Bool.false_eq_true, if_false]
    rcases h with h | h | h
    · rw [hig] at h
      exact absurd h (by decide)
    · simp [h]
    · cases hl : lookupStore symbols reference.uri with
      | none => simp
      | some syms =>
        simp only []
        apply List.find?_eq_none.mpr
        intro s hs
        simp [h syms hl s hs]

theorem mapReferences_drop (ignoreMatch : Path → Bool) (symbols : Store)
    (reference : Location)
    (hnone : mapReference ignoreMatch symbols reference = none)
    (l1 l2 : List Location) :
    mapReferences ignoreMatch symbols (l1 ++ reference :: l2) =
      mapReferences ignoreMatch symbols (l1 ++ l2) := by
  unfold mapReferences
  rw [List.filterMap_append, List.filterMap_append, List.filterMap_cons, hnone]

theorem buildAttrs_ok_iff (id : String) (attrs : List (String × JSValue)) :
    (buildAttrs id attrs).isOk = true ↔ ∀ p ∈ attrs, isSupportedJSValue p.2 = true := by
  induction attrs with
  | nil => simp [buildAttrs, Except.isOk, Except.toBool]
  | cons hd tl ih =>
    obtain ⟨name, value⟩ := hd
    cases value <;>
      simp [buildAttrs, addGXLAttribute, Except.isOk, Except.toBool, isSupportedJSValue, ih] <;>
      cases hb : buildAttrs id tl <;>
      simp [Except.isOk, Except.toBool, hb] at ih ⊢ <;> tauto

theorem createGXLNode_ok_iff (id type : String) (attrs : List (String × JSValue)) :
    (createGXLNode id type attrs).isOk = true ↔
      ∀ p ∈ attrs, isSupportedJSValue p.2 = true := by
  rw [← buildAttrs_ok_iff id attrs]
  unfold createGXLNode
  cases hb : buildAttrs id attrs <;> simp [Except.isOk, Except.toBool]

theorem createGXLNode_nodeAttrs_ok (id type : String) (s : LSPSymbol) (root uri : Path) :
    (createGXLNode id type (nodeAttrs s root uri)).isOk = true := rfl

theorem lookupStore_mem (store : Store) (k : Path) (v : List LSPSymbol)
    (h : lookupStore store k = some v) : (k, v) ∈ store := by
  unfold lookupStore at h
  cases hf : store.find? (fun e => e.1 = k) with
  | none => rw [hf] at h; simp at h
  | some e =>
    rw [hf] at h
    simp at h
    have hm := List.mem_of_find?_eq_some hf
    have hp := List.find?_some hf
    simp at hp
    have : e = (k, v) := by
      obtain ⟨e1, e2⟩ := e
      simp at hp h
      rw [hp, h]
    rw [← this]
    exact hm

theorem enclosingForFileSymbol_ok (rootPath : Path) (store : Store) (uri : Path)
    (nodeID : String) (hne : ∀ e ∈ store, e.2 ≠ []) :
    ∃ o, enclosingForFileSymbol rootPath store uri nodeID = .ok o := by
  simp only [enclosingForFileSymbol]
  split
  · exact ⟨none, rfl⟩
  · split
    · exact ⟨none, rfl⟩
    · cases hl : lookupStore store (parentPath uri) with
      | none => exact ⟨none, rfl⟩
      | some parentDirSymbols =>
        cases hp : parentDirSymbols with
        | nil =>
          exfalso
          have := hne _ (lookupStore_mem store _ _ hl)
          simp [hp] at this
        | cons p0 rest => exact ⟨_, rfl⟩

theorem asGXLSymbolStep_ok (rootPath : Path) (store : Store) (references : RefMap)
    (uri : Path) (st : BuildState) (symbol : LSPSymbol)
    (hne : ∀ e ∈ store, e.2 ≠ []) :
    ∃ st', asGXLSymbolStep rootPath store references uri st symbol = .ok st' := by
  simp only [asGXLSymbolStep]
  cases hk : getGXLSymbolKind symbol with
  | none => exact ⟨st, rfl⟩
  | some type =>
    by_cases hf : symbol.kind = SymbolKind.File
    · obtain ⟨o, ho⟩ := enclosingForFileSymbol_ok rootPath store uri (symbolId symbol) hne
      rw [if_pos hf, ho]
      have hcn := createGXLNode_nodeAttrs_ok (symbolId symbol) type symbol rootPath uri
      cases hc : createGXLNode (symbolId symbol) type (nodeAttrs symbol rootPath uri) with
      | error e => rw [hc] at hcn; simp [Except.isOk, Except.toBool] at hcn
      | ok node => cases o <;> exact ⟨_, rfl⟩
    · rw [if_neg hf]
      have hcn := createGXLNode_nodeAttrs_ok (symbolId symbol) type symbol rootPath uri
      cases hc : createGXLNode (symbolId symbol) type (nodeAttrs symbol rootPath uri) with
      | error e => rw [hc] at hcn; simp [Except.isOk, Except.toBool] at hcn
      | ok node => exact ⟨_, rfl⟩

theorem asGXLSymbols_ok (rootPath : Path) (store : Store) (references : RefMap)
    (uri : Path) (symbols : List LSPSymbol) (st : BuildState)
    (hne : ∀ e ∈ store, e.2 ≠ []) :
    ∃ st', asGXLSymbols rootPath store references uri symbols st = .ok st' := by
  induction symbols generalizing st with
  | nil => exact ⟨st, rfl⟩
  | cons symbol rest ih =>
    obtain ⟨st1, h1⟩ := asGXLSymbolStep_ok rootPath store references uri st symbol hne
    obtain ⟨st2, h2⟩ := ih st1
    exact ⟨st2, by simp [asGXLSymbols, h1, h2]⟩

theorem asGXLEntries_ok (rootPath : Path) (store : Store) (references : RefMap)
    (entries : List (Path × List LSPSymbol)) (st : BuildState)
    (hne : ∀ e ∈ store, e.2 ≠ []) :
    ∃ st', asGXLEntries rootPath store references entries st = .ok st' := by
  induction entries generalizing st with
  | nil => exact ⟨st, rfl⟩
  | cons entry rest ih =>
    obtain ⟨st1, h1⟩ := asGXLSymbols_ok rootPath store references entry.1 entry.2 st hne
    obtain ⟨st2, h2⟩ := ih st1
    exact ⟨st2, by simp [asGXLEntries, h1, h2]⟩

theorem asGXL_ok (store : Store) (references : RefMap) (rootPath : Path)
    (hne : ∀ e ∈ store, e.2 ≠ []) :
    (asGXL store references rootPath).isOk = true := by
  unfold asGXL
  obtain ⟨st, h⟩ := asGXLEntries_ok rootPath store references store initialBuildState hne
  rw [h]
  rfl

/-- Invariant of the `asGXL` loop state: every appended edge element carries
the id `hashObject({from, to, type})` of its own endpoints and type, and every
appended `Source_Dependency` edge has its endpoint pair recorded in
`edgeNodeIds`. -/
def BuildStateInv (st : BuildState) : Prop :=
  (∀ e, GXLElement.edge e ∈ st.elements → e.id = hashEdge e.fromId e.toId e.type) ∧
  (∀ e, GXLElement.edge e ∈ st.elements → e.type = "Source_Dependency" →
    (e.fromId, e.toId) ∈ st.edgeNodeIds)

theorem inv_extend_enclosing (st : BuildState) (a b : String) (h : BuildStateInv st) :
    BuildStateInv { st with elements :=
      st.elements ++ [GXLElement.edge (createGXLEdge a b "Enclosing")] } := by
  obtain ⟨h1, h2⟩ := h
  constructor
  · intro e he
    simp only [List.mem_append, List.mem_singleton] at he
    rcases he with he | he
    · exact h1 e he
    · injection he with he'
      subst he'
      rfl
  · intro e he hty
    simp only [List.mem_append, List.mem_singleton] at he
    rcases he with he | he
    · exact h2 e he hty
    · injection he with he'
      subst he'
      simp [createGXLEdge] at hty

theorem inv_extend_node (st : BuildState) (n : GXLNode) (h : BuildStateInv st) :
    BuildStateInv { st with elements := st.elements ++ [GXLElement.node n] } := by
  obtain ⟨h1, h2⟩ := h
  constructor
  · intro e he
    simp only [List.mem_append, List.mem_singleton] at he
    rcases he with he | he
    · exact h1 e he
    · exact absurd he (by simp)
  · intro e he hty
    simp only [List.mem_append, List.mem_singleton] at he
    rcases he with he | he
    · exact h2 e he hty
    · exact absurd he (by simp)

theorem inv_nodeIds (st : BuildState) (ids : List String) (h : BuildStateInv st) :
    BuildStateInv { st with nodeIds := ids } := h

theorem appendReferenceEdges_inv (nodeID : String) (refs : List LSPSymbol)
    (st : BuildState) (h : BuildStateInv st) :
    BuildStateInv (appendReferenceEdges nodeID refs st) := by
  induction refs generalizing st with
  | nil => exact h
  | cons r rest ih =>
    apply ih
    obtain ⟨h1, h2⟩ := h
    constructor
    · intro e he
      simp only [List.mem_append, List.mem_singleton] at he
      rcases he with he | he
      · exact h1 e he
      · injection he with he'
        subst he'
        rfl
    · intro e he hty
      simp only [List.mem_append, List.mem_singleton] at he
      rcases he with he | he
      · exact List.mem_append_left _ (h2 e he hty)
      · injection he with he'
        subst he'
        apply List.mem_append_right
        simp [createGXLEdge]

theorem enclosingForFileSymbol_shape (rootPath : Path) (store : Store) (uri : Path)
    (nodeID : String) (e : GXLEdge)
    (h : enclosingForFileSymbol rootPath store uri nodeID = .ok (some e)) :
    ∃ a b, e = createGXLEdge a b "Enclosing" := by
  simp only [enclosingForFileSymbol] at h
  split at h
  · simp at h
  · split at h
    · simp at h
    · split at h
      · split at h
        · simp at h
        · simp at h
          exact ⟨_, _, h.symm⟩
      · simp at h

theorem asGXLSymbolStep_inv (rootPath : Path) (store : Store) (references : RefMap)
    (uri : Path) (st st' : BuildState) (symbol : LSPSymbol)
    (hstep : asGXLSymbolStep rootPath store references uri st symbol = .ok st')
    (h : BuildStateInv st) :
    BuildStateInv st' := by
  simp only [asGXLSymbolStep] at hstep
  split at hstep
  · -- getGXLSymbolKind symbol = none
    simp only [Except.ok.injEq] at hstep
    subst hstep
    exact h
  · -- getGXLSymbolKind symbol = some type
    split at hstep
    · -- enclosing computation threw
      simp at hstep
    · -- enclosing computation returned
      rename_i type hkind enclosingEdge henc
      split at hstep
      · -- createGXLNode threw
        simp at hstep
      · rename_i node hnode
        simp only [Except.ok.injEq] at hstep
        subst hstep
        apply appendReferenceEdges_inv
        apply inv_extend_node
        cases enclosingEdge with
        | none => exact inv_nodeIds st _ h
        | some edge =>
          have hshape : ∃ a b, edge = createGXLEdge a b "Enclosing" := by
            by_cases hf : symbol.kind = SymbolKind.File
            · rw [if_pos hf] at henc
              exact enclosingForFileSymbol_shape rootPath store uri (symbolId symbol) edge henc
            · rw [if_neg hf] at henc
              simp at henc
          obtain ⟨a, b, hab⟩ := hshape
          rw [hab]
          exact inv_extend_enclosing _ a b (inv_nodeIds st _ h)

theorem asGXLSymbols_inv (rootPath : Path) (store : Store) (references : RefMap)
    (uri : Path) (symbols : List LSPSymbol) (st st' : BuildState)
    (hrun : asGXLSymbols rootPath store references uri symbols st = .ok st')
    (h : BuildStateInv st) : BuildStateInv st' := by
  induction symbols generalizing st with
  | nil =>
    simp only [asGXLSymbols, Except.ok.injEq] at hrun
    subst hrun
    exact h
  | cons symbol rest ih =>
    simp only [asGXLSymbols] at hrun
    split at hrun
    · simp at hrun
    · rename_i st1 hstep
      exact ih st1 hrun (asGXLSymbolStep_inv rootPath store references uri st st1 symbol hstep h)

theorem asGXLEntries_inv (rootPath : Path) (store : Store) (references : RefMap)
    (entries : List (Path × List LSPSymbol)) (st st' : BuildState)
    (hrun : asGXLEntries rootPath store references entries st = .ok st')
    (h : BuildStateInv st) : BuildStateInv st' := by
  induction entries generalizing st with
  | nil =>
    simp only [asGXLEntries, Except.ok.injEq] at hrun
    subst hrun
    exact h
  | cons entry rest ih =>
    simp only [asGXLEntries] at hrun
    split at hrun
    · simp at hrun
    · rename_i st1 hrun1
      exact ih st1 hrun (asGXLSymbols_inv rootPath store references entry.1 entry.2 st st1 hrun1 h)

/-- Characterization of a successful `asGXL` run by its final loop state. -/
theorem asGXL_ok_elim (store : Store) (references : RefMap) (rootPath : Path)
    (res : GXLResult) (h : asGXL store references rootPath = .ok res) :
    ∃ st, asGXLEntries rootPath store references store initialBuildState = .ok st ∧
      res.elements = st.elements ∧ res.nodeIds = st.nodeIds ∧
      res.edgeNodeIds = st.edgeNodeIds ∧
      res.validationErrors = validateEdges st.nodeIds st.edgeNodeIds := by
  unfold asGXL at h
  cases hrun : asGXLEntries rootPath store references store initialBuildState with
  | error e => rw [hrun] at h; simp at h
  | ok st =>
    rw [hrun] at h
    simp only [Except.ok.injEq] at h
    exact ⟨st, rfl, by rw [← h], by rw [← h], by rw [← h], by rw [← h]⟩

/-- Every edge element of a successful run is hash-identified, and every
`Source_Dependency` edge is recorded in `edgeNodeIds`. -/
theorem asGXL_edges_inv (store : Store) (references : RefMap) (rootPath : Path)
    (res : GXLResult) (h : asGXL store references rootPath = .ok res) :
    (∀ e, GXLElement.edge e ∈ res.elements → e.id = hashEdge e.fromId e.toId e.type) ∧
    (∀ e, GXLElement.edge e ∈ res.elements → e.type = "Source_Dependency" →
      (e.fromId, e.toId) ∈ res.edgeNodeIds) := by
  obtain ⟨st, hrun, he, _, hn, _⟩ := asGXL_ok_elim store references rootPath res h
  have hinv : BuildStateInv st :=
    asGXLEntries_inv rootPath store references store initialBuildState st hrun
      ⟨fun e he' => by simp [initialBuildState] at he',
       fun e he' _ => by simp [initialBuildState] at he'⟩
  rw [he, hn]
  exact hinv

theorem validateEdges_mem_from (nodeIds : List String) (pairs : List (String × String))
    (f t : String) (hmem : (f, t) ∈ pairs) (hf : nodeIds.contains f = false) :
    ("Edge is referencing non-existant from node " ++ f) ∈ validateEdges nodeIds pairs := by
  induction pairs with
  | nil => simp at hmem
  | cons p rest ih =>
    simp only [List.mem_cons] at hmem
    simp only [validateEdges]
    rcases hmem with hmem | hmem
    · rw [← hmem]
      have hf' : f ∉ nodeIds := by simpa using hf
      simp [hf']
    · exact List.mem_append_right _ (ih hmem)

theorem validateEdges_mem_to (nodeIds : List String) (pairs : List (String × String))
    (f t : String) (hmem : (f, t) ∈ pairs) (ht : nodeIds.contains t = false) :
    ("Edge is referencing non-existant to node " ++ t) ∈ validateEdges nodeIds pairs := by
  induction pairs with
  | nil => simp at hmem
  | cons p rest ih =>
    simp only [List.mem_cons] at hmem
    simp only [validateEdges]
    rcases hmem with hmem | hmem
    · rw [← hmem]
      have ht' : t ∉ nodeIds := by simpa using ht
      simp [ht']
    · exact List.mem_append_right _ (ih hmem)


/-! ## The claims -/

/-- C1: the claim states that every non-file symbol with a resolvable
container (a `containerName` matching another symbol of the entry, or a
file-kind symbol named like the file) gets an `Enclosing` edge in the emitted
document.  The code computes those edges (gxl.ts lines 159-171) but never
appends them to the graph element, so the emitted document contains no
`Enclosing` edge for any non-file symbol: on a store where `m`'s
`containerName` names class `C`, and where another entry even carries a
file-kind symbol named like its file, `asGXL` emits four nodes and zero
edges. -/
theorem claim1_containment_edges_not_emitted :
    symC1method.containerName = some symC1class.name ∧
    symC1file.kind = SymbolKind.File ∧ symC1file.name = basename uriC1b ∧
    (asGXL storeC1 [] rootC1).isOk = true ∧
    edgeElements (runAsGXL storeC1 [] rootC1).elements = [] ∧
    (nodeElements (runAsGXL storeC1 [] rootC1).elements).length = 4 := by decide

/-- C2: the claim states that the Reference Mapper selects the most specific
containing symbol per the `symbolSizes` ranking.  The code sorts a copy and
discards the result (lspindex.ts line 303), so `find` runs in provider order:
with class `C` listed before its method `m` and a reference inside both, the
mapper returns `C` although the ranking orders `m` (rank 17) strictly more
specific than `C` (rank 21) and `mapReferenceRanked` (the specified
behaviour) returns `m`. -/
theorem claim2_reference_mapper_specificity_ignored :
    mapReference (fun _ => false) storeC2 refC2 = some symC2class ∧
    mapReferenceRanked (fun _ => false) storeC2 refC2 = some symC2method ∧
    symC2method ≠ symC2class ∧
    containsRange symC2method.rangeOf refC2.range = true ∧
    containsRange symC2class.rangeOf refC2.range = true ∧
    symbolSizes symC2method.kind < symbolSizes symC2class.kind := by decide

/-- C3: collecting `/root/pkg/a.py` (depth 2) creates exactly the two
synthetic directory entries the claim describes (kind file, name = directory
base name, containerName = parent base name, up to and including the root),
and collecting `/root/b.py` (depth 1) creates exactly one; but the emitted
graph contains no `Enclosing` chain at all: the file symbol never reaches the
store (lspindex.ts lines 186/269) and the edge from a directory to the root
is suppressed (`parentDirectoryPath !== rootPath`, gxl.ts line 128), so the
depth-2 store yields three nodes and zero edges. -/
theorem claim3_directory_entries_without_enclosing_chain :
    storeC3 = [(fileC3, [symC3func]),
               (["", "root", "pkg"], [directorySymbol ["", "root", "pkg"] ["", "root", "pkg"]]),
               (rootC3, [directorySymbol rootC3 rootC3])] ∧
    (directorySymbol ["", "root", "pkg"] ["", "root", "pkg"]).name = "pkg" ∧
    (directorySymbol ["", "root", "pkg"] ["", "root", "pkg"]).containerName = some "root" ∧
    (directorySymbol ["", "root", "pkg"] ["", "root", "pkg"]).kind = SymbolKind.File ∧
    storeC3b = [(fileC3b, []), (rootC3, [directorySymbol rootC3 rootC3])] ∧
    (asGXL storeC3 [] rootC3).isOk = true ∧
    edgeElements (runAsGXL storeC3 [] rootC3).elements = [] ∧
    (nodeElements (runAsGXL storeC3 [] rootC3).elements).length = 3 := by decide

/-- C4: the reference-query anchor adjustment.  If the line text at the
anchor starts with the keyword `"class "`, the position sent with the
references request is the anchor advanced by `"class ".length + 1 = 7`; if it
starts with `"def "` (and the advanced position does not begin a `"class "`
occurrence), it is advanced by `"def ".length + 1 = 5`.  In particular, for a
symbol declared as `class Foo:` whose reported range starts at the `c` of
`class` (column 0), the request is sent at column 7, which lies inside the
identifier `Foo` (columns 6-8 of the line), not inside `class`. -/
theorem claim4_keyword_anchor_adjustment :
    (∀ (line : String) (c : Nat),
        ("class ".toList).isPrefixOf (line.toList.drop c) = true →
        adjustCharacter line c = c + 7) ∧
    (∀ (line : String) (c : Nat),
        ("def ".toList).isPrefixOf (line.toList.drop c) = true →
        ("class ".toList).isPrefixOf (line.toList.drop (c + 5)) = false →
        adjustCharacter line c = c + 5) ∧
    ((getReferencesStep contentC4 symC4class).2 = some { line := 0, character := 7 } ∧
     ((contentC4.getD 0 "").toList.drop 6).take 3 = "Foo".toList) :=
  ⟨adjust_class, adjust_def, by decide⟩

/-- C4 witness: both keyword rules applied at concrete lines. -/
theorem claim4_keyword_anchor_adjustment_witness :
    adjustCharacter "class Foo:" 0 = 0 + 7 ∧ adjustCharacter "def foo():" 0 = 0 + 5 :=
  ⟨claim4_keyword_anchor_adjustment.1 "class Foo:" 0 (by decide),
   claim4_keyword_anchor_adjustment.2.1 "def foo():" 0 (by decide) (by decide)⟩

/-- C5: the claim states symbols are never mutated after creation.  The
reference-collection loop aliases the symbol's stored range start
(`referencePosition = range.start`) and advances it in place: collecting
references for `foo` declared on the line `def foo():` replaces the stored
start column 0 by 5, so the symbol record, its content-hash id and the range
used for the later `Source.Column` attribute all differ from the symbol as
originally created. -/
theorem claim5_reference_collection_mutates_symbol :
    getReferencesStep contentC5 symC5func =
      (symC5mutated, some { line := 0, character := 5 }) ∧
    symC5mutated ≠ symC5func ∧
    symbolId symC5mutated ≠ symbolId symC5func ∧
    symC5mutated.rangeOf.start.character = 5 ∧
    symC5func.rangeOf.start.character = 0 := by decide

/-- C6: a reference whose target file matches an ignore pattern, or was never
collected, or whose range is contained in no symbol of the target entry,
resolves to no referencing symbol, and the mapping of a reference list
containing it equals the mapping with it removed — the loop simply continues
(the mapper is a total function; no exception is involved). -/
theorem claim6_rejected_references_dropped (ignoreMatch : Path → Bool) (symbols : Store)
    (reference : Location)
    (h : ignoreMatch reference.uri = true ∨
         lookupStore symbols reference.uri = none ∨
         (∀ syms, lookupStore symbols reference.uri = some syms →
            ∀ s ∈ syms, containsRange s.rangeOf reference.range = false)) :
    mapReference ignoreMatch symbols reference = none ∧
    ∀ l1 l2, mapReferences ignoreMatch symbols (l1 ++ reference :: l2) =
      mapReferences ignoreMatch symbols (l1 ++ l2) := by
  have hnone := mapReference_rejected ignoreMatch symbols reference h
  exact ⟨hnone, fun l1 l2 => mapReferences_drop ignoreMatch symbols reference hnone l1 l2⟩

/-- C6 witness: a reference into a never-collected file is dropped. -/
theorem claim6_rejected_references_dropped_witness :
    mapReference (fun _ => false) ([] : Store) refC6 = none ∧
    mapReferences (fun _ => false) ([] : Store) ([] ++ refC6 :: []) =
      mapReferences (fun _ => false) ([] : Store) ([] ++ []) :=
  ⟨(claim6_rejected_references_dropped (fun _ => false) [] refC6 (Or.inr (Or.inl rfl))).1,
   (claim6_rejected_references_dropped (fun _ => false) [] refC6 (Or.inr (Or.inl rfl))).2 [] []⟩

/-- C7 counterexample: an input whose node attributes are all integers or
strings on which `asGXL` nevertheless throws — reading
`parentDirSymbols[0].kind` of an empty parent-directory entry is a
`TypeError` (gxl.ts line 133) — so "throws if and only if a node attribute is
missing or unsupported" is false as stated. -/
theorem claim7_counterexample_empty_parent_entry :
    errorOf (asGXL storeC7 [] rootC7) =
      some "TypeError: Cannot read properties of undefined (reading kind)" ∧
    (nodeAttrs symC7file rootC7 ["", "root", "a", "b"]).all
      (fun p => isSupportedJSValue p.2) = true := by decide

/-- C7 amended: the attribute encoder `createGXLNode` succeeds exactly when
every attribute value is an integer or a string (a `null`/`undefined` or
other value throws), and `asGXL` completes on every input in which no store
entry is empty (the node attributes it builds are always integers and
strings). -/
theorem claim7_encoder_failure_conditions :
    (∀ (id type : String) (attrs : List (String × JSValue)),
        (createGXLNode id type attrs).isOk = true ↔
          ∀ p ∈ attrs, isSupportedJSValue p.2 = true) ∧
    (∀ (store : Store) (references : RefMap) (rootPath : Path),
        (∀ entry ∈ store, entry.2 ≠ []) →
        (asGXL store references rootPath).isOk = true) :=
  ⟨createGXLNode_ok_iff,
   fun store references rootPath hne => asGXL_ok store references rootPath hne⟩

/-- C7 witness: the amended statement applied at concrete inputs. -/
theorem claim7_encoder_failure_conditions_witness :
    ((createGXLNode "n" "File"
        [("Source.Name", JSValue.str "x"), ("Source.Line", JSValue.int 0)]).isOk = true ↔
      ∀ p ∈ [("Source.Name", JSValue.str "x"), ("Source.Line", JSValue.int 0)],
        isSupportedJSValue p.2 = true) ∧
    (asGXL storeC7w [] rootC7).isOk = true :=
  ⟨claim7_encoder_failure_conditions.1 "n" "File" _,
   claim7_encoder_failure_conditions.2 storeC7w [] rootC7 (by decide)⟩

/-- C8: the pipeline is deterministic — equal collected inputs give equal
results (every id is a function of its inputs: the node id of a symbol is
built from its kind, mapped node type, name and content hash; the edge id is
the hash of exactly from, to and type; and every edge element of a run
carries that id). -/
theorem claim8_deterministic_graph_identity (store store' : Store)
    (references references' : RefMap) (rootPath : Path)
    (hs : store = store') (hr : references = references') :
    asGXL store references rootPath = asGXL store' references' rootPath ∧
    (∀ fromId toId type, (createGXLEdge fromId toId type).id = hashEdge fromId toId type) ∧
    (∀ s, symbolId s = toString s.kind ++ ":" ++
        (match getGXLSymbolKind s with | some t => t | none => "undefined") ++ ":" ++
        s.name ++ ":" ++ hashObject s) ∧
    (∀ res e, asGXL store references rootPath = .ok res →
        GXLElement.edge e ∈ res.elements → e.id = hashEdge e.fromId e.toId e.type) := by
  subst hs
  subst hr
  refine ⟨rfl, fun _ _ _ => rfl, fun _ => rfl, ?_⟩
  intro res e hres he
  exact (asGXL_edges_inv store references rootPath res hres).1 e he

/-- C8 witness: the determinism statement applied to a concrete run. -/
theorem claim8_deterministic_graph_identity_witness :
    asGXL storeC8 refsC8 rootC8 = asGXL storeC8 refsC8 rootC8 ∧
    (createGXLEdge "a" "b" "Enclosing").id = hashEdge "a" "b" "Enclosing" :=
  ⟨(claim8_deterministic_graph_identity storeC8 storeC8 refsC8 refsC8 rootC8 rfl rfl).1,
   (claim8_deterministic_graph_identity storeC8 storeC8 refsC8 refsC8 rootC8 rfl rfl).2.1
     "a" "b" "Enclosing"⟩

/-- C9 counterexample: the claim states the integrity pass scans *every* edge
of the document.  On a store whose parent-directory entry holds a symbol of
unmapped kind, the document contains an `Enclosing` edge whose target id is
absent from the node id set, yet the verification pass reports nothing —
`edgeNodeIds` records only `Source_Dependency` edges. -/
theorem claim9_counterexample_enclosing_edge_unchecked :
    (asGXL storeC9 [] rootC9).isOk = true ∧
    (∃ e ∈ edgeElements (runAsGXL storeC9 [] rootC9).elements,
        (runAsGXL storeC9 [] rootC9).nodeIds.contains e.toId = false) ∧
    (runAsGXL storeC9 [] rootC9).validationErrors = [] := by decide

/-- C9 amended: after all nodes and edges are added, the integrity pass scans
every `Source_Dependency` edge placed in the output document (the only kind
recorded in `edgeNodeIds`) and reports, without aborting the run, each of its
endpoint ids absent from the final node id set; `Enclosing` edges are not
scanned. -/
theorem claim9_validation_reports_recorded_endpoints (store : Store)
    (references : RefMap) (rootPath : Path) (res : GXLResult) (e : GXLEdge)
    (hres : asGXL store references rootPath = .ok res)
    (he : GXLElement.edge e ∈ res.elements)
    (hty : e.type = "Source_Dependency") :
    (res.nodeIds.contains e.fromId = false →
      ("Edge is referencing non-existant from node " ++ e.fromId) ∈ res.validationErrors) ∧
    (res.nodeIds.contains e.toId = false →
      ("Edge is referencing non-existant to node " ++ e.toId) ∈ res.validationErrors) := by
  obtain ⟨st, hrun, helts, hnids, hpairs, hverr⟩ :=
    asGXL_ok_elim store references rootPath res hres
  have hmem : (e.fromId, e.toId) ∈ res.edgeNodeIds :=
    (asGXL_edges_inv store references rootPath res hres).2 e he hty
  rw [hpairs] at hmem
  constructor
  · intro hf
    rw [hnids] at hf
    rw [hverr]
    exact validateEdges_mem_from st.nodeIds st.edgeNodeIds e.fromId e.toId hmem hf
  · intro ht
    rw [hnids] at ht
    rw [hverr]
    exact validateEdges_mem_to st.nodeIds st.edgeNodeIds e.fromId e.toId hmem ht

/-- C9 witness: a `Source_Dependency` edge from a symbol of an uncollected
file dangles and is reported by the verification pass. -/
theorem claim9_validation_reports_recorded_endpoints_witness :
    ("Edge is referencing non-existant from node " ++ symbolId symC9wghost) ∈
      (runAsGXL storeC9w refsC9w rootC9).validationErrors :=
  (claim9_validation_reports_recorded_endpoints storeC9w refsC9w rootC9
      (runAsGXL storeC9w refsC9w rootC9)
      (createGXLEdge (symbolId symC9wghost) (symbolId symC9wdef) "Source_Dependency")
      (by rfl) (by decide) rfl).1 (by decide)

/-- C10: edge ids are a function of exactly the from id, to id and edge type:
any two edge elements of one run that agree on those three fields carry the
identical id string (so ids do not distinguish the duplicate edges of the
multigraph). -/
theorem claim10_edge_id_determined_by_endpoints_and_type (store : Store)
    (references : RefMap) (rootPath : Path) (res : GXLResult) (e₁ e₂ : GXLEdge)
    (hres : asGXL store references rootPath = .ok res)
    (h₁ : GXLElement.edge e₁ ∈ res.elements) (h₂ : GXLElement.edge e₂ ∈ res.elements)
    (hf : e₁.fromId = e₂.fromId) (ht : e₁.toId = e₂.toId) (hty : e₁.type = e₂.type) :
    e₁.id = e₂.id := by
  have i := (asGXL_edges_inv store references rootPath res hres).1
  rw [i e₁ h₁, i e₂ h₂, hf, ht, hty]

/-- C10 witness: a definition referenced twice by the same symbol yields two
`Source_Dependency` edge elements, and the theorem applies to them. -/
theorem claim10_edge_id_determined_by_endpoints_and_type_witness :
    (edgeElements (runAsGXL storeC10 refsC10 rootC10).elements).length = 2 ∧
    edgeC10.id = edgeC10.id :=
  ⟨by decide,
   claim10_edge_id_determined_by_endpoints_and_type storeC10 refsC10 rootC10
     (runAsGXL storeC10 refsC10 rootC10) edgeC10 edgeC10
     (by rfl) (by decide) (by decide) rfl rfl rfl⟩

end LSPIndex
